import Mathlib

/-!
Verification of the fork-schedule and backend logic of go-rue.

The definitions below are a shallow embedding of `params/config.go` and
`rue/backend.go`.  Go `*big.Int` pointers become `Option Int` (a `nil`
pointer is `none`), `uint64` values become `Nat` with explicit reduction
modulo `2 ^ 64` where the Go code performs `uint64` arithmetic, and the
unbounded `for` loop inside `CheckCompatible` becomes a fuel-indexed
recursion whose fuel is proved sufficient below.
-/

/-- Reduction modulo `2 ^ 64`, the carrier arithmetic of Go `uint64`.
`18446744073709551616 = 2 ^ 64`. -/
def u64 (n : Nat) : Nat := n % 18446744073709551616

/-- `params.EthashConfig`: consensus engine config for proof-of-work sealing
(a field-less struct in the source). -/
structure EthashConfig where
  deriving DecidableEq, Repr

/-- `params.CliqueConfig`: consensus engine config for proof-of-authority
sealing. -/
structure CliqueConfig where
  period : Nat
  epoch : Nat
  deriving DecidableEq, Repr

/-- `params.ChainConfig`.  The fields are the ones declared by the struct in
`params/config.go` plus `frontierBlock` and `saoHaoBlock`, which the fork
accessors `IsFrontier` and `IsSaoHao` and the `MainnetChainConfig` literal
reference.  The `EIP150Hash` field and the remaining per-fork height fields
are not read by any of the functions verified here and are omitted. -/
structure ChainConfig where
  chainId : Option Int
  homesteadBlock : Option Int
  frontierBlock : Option Int
  saoHaoBlock : Option Int
  daoForkBlock : Option Int
  daoForkSupport : Bool
  eip150Block : Option Int
  eip155Block : Option Int
  eip158Block : Option Int
  byzantiumBlock : Option Int
  ethash : Option EthashConfig
  clique : Option CliqueConfig
  deriving DecidableEq, Repr

/-- `params.isForked`: whether a fork scheduled at block `s` is active at the
given head block (`false` when either pointer is nil). -/
def isForked (s head : Option Int) : Bool :=
  match s, head with
  | none, _ => false
  | _, none => false
  | some s, some head => s ≤ head

/-- `params.configNumEqual`. -/
def configNumEqual (x y : Option Int) : Bool :=
  match x, y with
  | none, none => true
  | none, some _ => false
  | some _, none => false
  | some a, some b => a == b

/-- `params.isForkIncompatible`: a fork scheduled at `s1` cannot be
rescheduled to `s2` because head is already past the fork. -/
def isForkIncompatible (s1 s2 head : Option Int) : Bool :=
  (isForked s1 head || isForked s2 head) && !configNumEqual s1 s2

/-- `(*ChainConfig).IsFrontier` (source lines 222 and 291). -/
def ChainConfig.IsFrontier (c : ChainConfig) (num : Option Int) : Bool :=
  isForked c.frontierBlock num

/-- `(*ChainConfig).IsSaoHao`.  The source reads `c.FrontierBlock`, not
`c.SaoHaoBlock`. -/
def ChainConfig.IsSaoHao (c : ChainConfig) (num : Option Int) : Bool :=
  isForked c.frontierBlock num

/-- `(*ChainConfig).IsDAOFork`. -/
def ChainConfig.IsDAOFork (c : ChainConfig) (num : Option Int) : Bool :=
  isForked c.daoForkBlock num

/-- `(*ChainConfig).IsEIP150`. -/
def ChainConfig.IsEIP150 (c : ChainConfig) (num : Option Int) : Bool :=
  isForked c.eip150Block num

/-- `(*ChainConfig).IsEIP155`. -/
def ChainConfig.IsEIP155 (c : ChainConfig) (num : Option Int) : Bool :=
  isForked c.eip155Block num

/-- `(*ChainConfig).IsEIP158`. -/
def ChainConfig.IsEIP158 (c : ChainConfig) (num : Option Int) : Bool :=
  isForked c.eip158Block num

/-- `(*ChainConfig).IsByzantium`. -/
def ChainConfig.IsByzantium (c : ChainConfig) (num : Option Int) : Bool :=
  isForked c.byzantiumBlock num

/-- `params.ConfigCompatError`.  `RewindTo` is a `uint64` field. -/
structure ConfigCompatError where
  What : String
  StoredConfig : Option Int
  NewConfig : Option Int
  RewindTo : Nat
  deriving DecidableEq, Repr

/-- `params.newCompatError`.  `rew.Uint64()` is the low 64 bits of `rew`
(`rew` is positive under the guard), and the `- 1` is `uint64` subtraction,
rendered as addition of `2 ^ 64 - 1` modulo `2 ^ 64`. -/
def newCompatError (what : String) (storedblock newblock : Option Int) :
    ConfigCompatError :=
  let rew : Option Int :=
    match storedblock, newblock with
    | none, _ => newblock
    | some s, none => some s
    | some s, some n => if s < n then some s else some n
  let rewindTo : Nat :=
    match rew with
    | none => 0
    | some g => if 0 < g then u64 (u64 g.toNat + 18446744073709551615) else 0
  { What := what, StoredConfig := storedblock, NewConfig := newblock,
    RewindTo := rewindTo }

/-- `(*ChainConfig).checkCompatible`: one reconciliation pass, returning the
first conflicting fork boundary at `head`. -/
def checkCompatible (c newcfg : ChainConfig) (head : Int) :
    Option ConfigCompatError :=
  if isForkIncompatible c.homesteadBlock newcfg.homesteadBlock (some head) then
    some (newCompatError "Homestead fork block" c.homesteadBlock newcfg.homesteadBlock)
  else if isForkIncompatible c.daoForkBlock newcfg.daoForkBlock (some head) then
    some (newCompatError "DAO fork block" c.daoForkBlock newcfg.daoForkBlock)
  else if c.IsDAOFork (some head) && (c.daoForkSupport != newcfg.daoForkSupport) then
    some (newCompatError "DAO fork support flag" c.daoForkBlock newcfg.daoForkBlock)
  else if isForkIncompatible c.eip150Block newcfg.eip150Block (some head) then
    some (newCompatError "EIP150 fork block" c.eip150Block newcfg.eip150Block)
  else if isForkIncompatible c.eip155Block newcfg.eip155Block (some head) then
    some (newCompatError "EIP155 fork block" c.eip155Block newcfg.eip155Block)
  else if isForkIncompatible c.eip158Block newcfg.eip158Block (some head) then
    some (newCompatError "EIP158 fork block" c.eip158Block newcfg.eip158Block)
  else if c.IsEIP158 (some head) && !configNumEqual c.chainId newcfg.chainId then
    some (newCompatError "EIP158 chain ID" c.eip158Block newcfg.eip158Block)
  else if isForkIncompatible c.byzantiumBlock newcfg.byzantiumBlock (some head) then
    some (newCompatError "Byzantium fork block" c.byzantiumBlock newcfg.byzantiumBlock)
  else
    none

/-- The unbounded `for` loop inside `(*ChainConfig).CheckCompatible`,
rendered with an explicit fuel argument.  Each iteration runs one
`checkCompatible` pass at `bhead`; the loop breaks returning `lasterr`
when the pass reports no error or repeats the previous rewind target,
and otherwise records the error and rewinds `bhead` to its `RewindTo`.
The fuel used by `CheckCompatible` is proved sufficient below
(`checkCompatibleLoop` stabilizes, see the fixed-point theorem). -/
def checkCompatibleLoop (c newcfg : ChainConfig) :
    Nat → Option ConfigCompatError → Nat → Option ConfigCompatError
  | 0, lasterr, _ => lasterr
  | fuel + 1, lasterr, bhead =>
    match checkCompatible c newcfg (bhead : Int), lasterr with
    | none, _ => lasterr
    | some err, none => checkCompatibleLoop c newcfg fuel (some err) err.RewindTo
    | some err, some l =>
      if err.RewindTo = l.RewindTo then lasterr
      else checkCompatibleLoop c newcfg fuel (some err) err.RewindTo

/-- `(*ChainConfig).CheckCompatible`: iterate `checkCompatible` to find the
lowest conflict, starting from the `uint64` head `height`. -/
def CheckCompatible (c newcfg : ChainConfig) (height : Nat) :
    Option ConfigCompatError :=
  checkCompatibleLoop c newcfg (height + 2) none height

/- ------------------------------------------------------------------ -/
/- rue/backend.go                                                     -/
/- ------------------------------------------------------------------ -/

/-- `ruehash.Mode`: the proof-of-work engine operating modes distinguished
by `CreateConsensusEngine` (every mode other than fake/test/shared takes
the default branch). -/
inductive PowMode where
  | fake
  | test
  | shared
  | normal
  deriving DecidableEq, Repr

/-- The part of `ruehash.Config` that `CreateConsensusEngine` dispatches
on. -/
structure RuehashConfig where
  powMode : PowMode
  deriving DecidableEq, Repr

/-- The consensus engines `CreateConsensusEngine` can build: a
proof-of-authority (clique) engine from a `CliqueConfig`, or one of the
proof-of-work ruehash variants (faker, tester, shared, or the full engine
built from the ruehash config). -/
inductive Engine where
  | clique (cfg : CliqueConfig)
  | ruehashFaker
  | ruehashTester
  | ruehashShared
  | ruehashFull (cfg : RuehashConfig)
  deriving DecidableEq, Repr

/-- `rue.CreateConsensusEngine`: if proof-of-authority is requested (the
chain config carries a clique sub-config) set it up; otherwise assume
proof-of-work and dispatch on the mode flag. -/
def CreateConsensusEngine (config : RuehashConfig) (chainConfig : ChainConfig) :
    Engine :=
  match chainConfig.clique with
  | some cliqueConf => Engine.clique cliqueConf
  | none =>
    match config.powMode with
    | PowMode.fake => Engine.ruehashFaker
    | PowMode.test => Engine.ruehashTester
    | PowMode.shared => Engine.ruehashShared
    | PowMode.normal => Engine.ruehashFull config

/-- `accounts.Account`: only the address matters here.  `common.Address`
is rendered as `Nat`; the zero value `common.Address{}` is `0`. -/
structure Account where
  Address : Nat
  deriving DecidableEq, Repr

/-- An `accounts.Wallet` as used by `Ruebase`: an ordered account list. -/
structure Wallet where
  accounts : List Account
  deriving DecidableEq, Repr

/-- `(accounts.Wallet).Accounts()`. -/
def Wallet.Accounts (w : Wallet) : List Account := w.accounts

/-- The `accounts.Manager` collaborator: an ordered wallet list. -/
structure AccountsManager where
  wallets : List Wallet
  deriving DecidableEq, Repr

/-- `(*accounts.Manager).Wallets()`. -/
def AccountsManager.Wallets (m : AccountsManager) : List Wallet := m.wallets

/-- The fields of the `rue.Rue` service that `Ruebase` reads or writes:
the cached `ruebase` beneficiary address and the account manager. -/
structure Rue where
  ruebase : Nat
  accountManager : AccountsManager
  deriving DecidableEq, Repr

/-- `(*Rue).AccountManager()`. -/
def Rue.AccountManager (s : Rue) : AccountsManager := s.accountManager

/-- `(*Rue).Ruebase`: returns the explicitly set beneficiary when non-zero;
otherwise consults `AccountManager().Wallets()`, and when the first wallet
has at least one account, returns that account address and caches it in
`s.ruebase`; otherwise fails.  The returned pair is (result, state after
the call). -/
def Rue.Ruebase (s : Rue) : Except String Nat × Rue :=
  let ruebase := s.ruebase
  if ruebase ≠ 0 then
    (Except.ok ruebase, s)
  else
    match s.AccountManager.Wallets with
    | [] => (Except.error "ruebase must be explicitly specified", s)
    | w :: _ =>
      match w.Accounts with
      | [] => (Except.error "ruebase must be explicitly specified", s)
      | a :: _ => (Except.ok a.Address, { s with ruebase := a.Address })

/- ------------------------------------------------------------------ -/
/- Specification-side definitions                                     -/
/- ------------------------------------------------------------------ -/

/-- The governing boundary height of a conflict between a stored and a
candidate fork height, following the spec: the candidate when the stored
height is undefined, the stored height when the candidate is undefined,
and the smaller of the two when both are defined. -/
def govern (storedblock newblock : Option Int) : Option Int :=
  match storedblock, newblock with
  | none, _ => newblock
  | some s, none => some s
  | some s, some n => some (min s n)

/-- Modelled from the spec: the rewind target of a conflict, written in
the spec vocabulary — the `uint64` value `g - 1` when the governing
boundary height `g` is positive, and `0` when it is nil, zero or
negative. -/
def rewindSpec (storedblock newblock : Option Int) : Nat :=
  match govern storedblock newblock with
  | none => 0
  | some g => if 0 < g then (g.toNat - 1) % 18446744073709551616 else 0

/-- Modelled from the spec: the first managed account across all wallets
of an account manager (the spec phrase "the first managed account's
address"). -/
def firstManagedAccount (m : AccountsManager) : Option Nat :=
  (List.map Account.Address (List.flatten (List.map Wallet.accounts m.wallets))).head?

/- ------------------------------------------------------------------ -/
/- Basic lemmas                                                       -/
/- ------------------------------------------------------------------ -/

theorem configNumEqual_self (x : Option Int) : configNumEqual x x = true := by
  cases x <;> simp [configNumEqual]

theorem newCompatError_rewindTo (what : String) (s n : Option Int) :
    (newCompatError what s n).RewindTo = rewindSpec s n := by
  cases s with
  | none =>
    cases n with
    | none => rfl
    | some y =>
      simp [newCompatError, rewindSpec, govern, u64]
      split <;> omega
  | some a =>
    cases n with
    | none =>
      simp [newCompatError, rewindSpec, govern, u64]
      split <;> omega
    | some y =>
      by_cases h : a < y
      · have hmin : min a y = a := min_eq_left (le_of_lt h)
        simp [newCompatError, rewindSpec, govern, u64, h, hmin]
        split <;> omega
      · have hmin : min a y = y := min_eq_right (by omega)
        simp [newCompatError, rewindSpec, govern, u64, h, hmin]
        split <;> omega

/-- A positive governing height bounded by the head gives the exact
`g - 1` rewind value (no wrap-around below `2 ^ 64`). -/
theorem rewindSpec_le {s n : Option Int} {b : Nat}
    (h : ∀ g : Int, govern s n = some g → g ≤ (b : Int)) :
    rewindSpec s n ≤ b := by
  unfold rewindSpec
  cases hg : govern s n with
  | none => exact Nat.zero_le b
  | some g =>
    have hgb := h g hg
    by_cases hpos : 0 < g
    · simp only [hpos, if_pos]
      have h1 : g.toNat ≤ b := by omega
      calc (g.toNat - 1) % 18446744073709551616 ≤ g.toNat - 1 := Nat.mod_le _ _
        _ ≤ b := by omega
    · simp [hpos]

/- ------------------------------------------------------------------ -/
/- Concrete configurations used in closed theorems                    -/
/- ------------------------------------------------------------------ -/

/-- A chain config with every pointer field nil. -/
def cfgEmpty : ChainConfig :=
  { chainId := none, homesteadBlock := none, frontierBlock := none,
    saoHaoBlock := none, daoForkBlock := none, daoForkSupport := false,
    eip150Block := none, eip155Block := none, eip158Block := none,
    byzantiumBlock := none, ethash := none, clique := none }

/-- A config that schedules the SaoHao fork at height 5 and leaves the
Frontier height nil. -/
def cfgSaoHao5 : ChainConfig := { cfgEmpty with saoHaoBlock := some 5 }

/-- A candidate config scheduling Homestead at height 200. -/
def cfgHom200 : ChainConfig := { cfgEmpty with homesteadBlock := some 200 }

/-- A clique-bearing config. -/
def cfgClique : ChainConfig :=
  { cfgEmpty with clique := some { period := 15, epoch := 30000 } }

/-- A config resembling the mainnet schedule restricted to the modelled
fields. -/
def cfgMain : ChainConfig :=
  { chainId := some 1, homesteadBlock := none, frontierBlock := some 1,
    saoHaoBlock := some 14463900, daoForkBlock := some 0,
    daoForkSupport := false, eip150Block := some 0, eip155Block := some 0,
    eip158Block := some 0, byzantiumBlock := some 2848950,
    ethash := some {}, clique := none }

/- ------------------------------------------------------------------ -/
/- C1, C9: the per-fork accessors and the IsSaoHao slip               -/
/- ------------------------------------------------------------------ -/

/-- C1: the spec requires every accessor to apply `isForked` to its own
fork's scheduled height, with no per-fork special-casing, in particular
`IsSaoHao`.  The code violates this: at a config whose SaoHao height is 5
and whose Frontier height is nil, height 10 satisfies the spec's activation
condition for SaoHao (`isForked` on the SaoHao height is true), yet
`IsSaoHao` — which reads `c.FrontierBlock` — returns false. -/
theorem IsSaoHao_breaks_uniform_isActive :
    cfgSaoHao5.saoHaoBlock = some 5 ∧
    isForked cfgSaoHao5.saoHaoBlock (some 10) = true ∧
    cfgSaoHao5.IsSaoHao (some 10) = false := by decide

/-- C9: `IsSaoHao` evaluates `isForked` on `c.FrontierBlock`, so it always
agrees with `IsFrontier`, and its result is unchanged under any replacement
of the SaoHao activation height. -/
theorem IsSaoHao_agrees_with_IsFrontier (c : ChainConfig) (num : Option Int)
    (v : Option Int) :
    c.IsSaoHao num = c.IsFrontier num ∧
    ChainConfig.IsSaoHao { c with saoHaoBlock := v } num = c.IsSaoHao num :=
  ⟨rfl, rfl⟩

/- ------------------------------------------------------------------ -/
/- C8: fork activation is monotone in height                          -/
/- ------------------------------------------------------------------ -/

/-- C8: for a fork with a defined activation height `s` and heights
`h1 < h2`, activation at `h1` implies activation at `h2`: a fork never
deactivates. -/
theorem isForked_monotone (s h1 h2 : Int) (hlt : h1 < h2)
    (hact : isForked (some s) (some h1) = true) :
    isForked (some s) (some h2) = true := by
  simp only [isForked, decide_eq_true_eq] at *
  omega

theorem isForked_monotone_witness :
    ((3 : Int) < 5 ∧ isForked (some 2) (some 3) = true) ∧
      isForked (some 2) (some 5) = true :=
  ⟨⟨by decide, by decide⟩, isForked_monotone 2 3 5 (by decide) (by decide)⟩

/- ------------------------------------------------------------------ -/
/- C5: a clique sub-config always wins                                -/
/- ------------------------------------------------------------------ -/

/-- C5: whenever the chain config carries a proof-of-authority (clique)
sub-config, `CreateConsensusEngine` returns the proof-of-authority engine
built from it, for every mode flag. -/
theorem clique_overrides_mode (config : RuehashConfig)
    (chainConfig : ChainConfig) (cc : CliqueConfig)
    (h : chainConfig.clique = some cc) :
    CreateConsensusEngine config chainConfig = Engine.clique cc := by
  unfold CreateConsensusEngine
  rw [h]

theorem clique_overrides_mode_witness :
    cfgClique.clique = some { period := 15, epoch := 30000 } ∧
      CreateConsensusEngine { powMode := PowMode.fake } cfgClique =
        Engine.clique { period := 15, epoch := 30000 } :=
  ⟨by decide,
   clique_overrides_mode { powMode := PowMode.fake } cfgClique
     { period := 15, epoch := 30000 } (by decide)⟩

/- ------------------------------------------------------------------ -/
/- C6: identical schedules are compatible                             -/
/- ------------------------------------------------------------------ -/

theorem checkCompatible_self (c : ChainConfig) (hd : Int) :
    checkCompatible c c hd = none := by
  simp [checkCompatible, isForkIncompatible, configNumEqual_self]

/-- C6: reconciling two identical schedules yields no compatibility error
at any head height. -/
theorem identical_configs_no_error (c1 c2 : ChainConfig) (height : Nat)
    (h : c1 = c2) : CheckCompatible c1 c2 height = none := by
  subst h
  show checkCompatibleLoop c1 c1 (height + 1 + 1) none height = none
  simp [checkCompatibleLoop, checkCompatible_self]

theorem identical_configs_no_error_witness :
    CheckCompatible cfgMain cfgMain 14463900 = none :=
  identical_configs_no_error cfgMain cfgMain 14463900 rfl

/- ------------------------------------------------------------------ -/
/- C4: the DAO support-flag check                                     -/
/- ------------------------------------------------------------------ -/

theorem newCompatError_What (w : String) (s n : Option Int) :
    (newCompatError w s n).What = w := rfl

/-- Stored side of the shadowing counterexample: Homestead at 0, DAO at 0,
opposing the fork. -/
def cfgDaoShadowStored : ChainConfig :=
  { cfgEmpty with homesteadBlock := some 0, daoForkBlock := some 0 }

/-- Candidate side of the shadowing counterexample: Homestead moved to 5,
DAO at 0, supporting the fork. -/
def cfgDaoShadowCand : ChainConfig :=
  { cfgEmpty with
    homesteadBlock := some 5, daoForkBlock := some 0,
    daoForkSupport := true }

/-- C4 counterexample: the support flags differ and the DAO fork is active
at head 10, yet the reported conflict is the Homestead fork block, not the
DAO support flag — the earlier check shadows it, refuting the claimed
"iff". -/
theorem dao_support_shadowed_counterexample :
    cfgDaoShadowStored.daoForkSupport ≠ cfgDaoShadowCand.daoForkSupport ∧
    cfgDaoShadowStored.IsDAOFork (some 10) = true ∧
    checkCompatible cfgDaoShadowStored cfgDaoShadowCand 10 =
      some { What := "Homestead fork block", StoredConfig := some 0,
             NewConfig := some 5, RewindTo := 0 } ∧
    ("Homestead fork block" : String) ≠ "DAO fork support flag" :=
  ⟨by decide, by decide, by decide, by decide⟩

/-- C4 amended: the reconcile pass reports the DAO support-flag conflict iff
the support flags differ, the DAO fork is active at head under the stored
schedule, and neither of the two earlier checks (Homestead block, DAO block)
conflicts; and differing support flags alone — all other fields equal —
produce no error when the DAO fork is not active at head. -/
theorem dao_support_characterization (c n : ChainConfig) (hd : Int) (b : Bool) :
    ((∃ e, checkCompatible c n hd = some e ∧ e.What = "DAO fork support flag") ↔
      (isForkIncompatible c.homesteadBlock n.homesteadBlock (some hd) = false ∧
       isForkIncompatible c.daoForkBlock n.daoForkBlock (some hd) = false ∧
       c.IsDAOFork (some hd) = true ∧ c.daoForkSupport ≠ n.daoForkSupport)) ∧
    (c.IsDAOFork (some hd) = false →
      checkCompatible c { c with daoForkSupport := b } hd = none) := by
  constructor
  · unfold checkCompatible
    split_ifs with h1 h2 h3 h4 h5 h6 h7 h8 <;>
      simp only [Bool.not_eq_true] at *
    · constructor
      · rintro ⟨e, he, hW⟩
        rw [Option.some.injEq] at he
        rw [← he, newCompatError_What] at hW
        exact absurd hW (by decide)
      · rintro ⟨ha, -, -, -⟩
        rw [h1] at ha
        exact absurd ha (by decide)
    · constructor
      · rintro ⟨e, he, hW⟩
        rw [Option.some.injEq] at he
        rw [← he, newCompatError_What] at hW
        exact absurd hW (by decide)
      · rintro ⟨-, ha, -, -⟩
        rw [h2] at ha
        exact absurd ha (by decide)
    · constructor
      · intro _
        rw [Bool.and_eq_true, bne_iff_ne] at h3
        exact ⟨h1, h2, h3.1, h3.2⟩
      · intro _
        exact ⟨_, rfl, rfl⟩
    · constructor
      · rintro ⟨e, he, hW⟩
        rw [Option.some.injEq] at he
        rw [← he, newCompatError_What] at hW
        exact absurd hW (by decide)
      · rintro ⟨-, -, hdao, hne⟩
        rw [hdao, Bool.true_and, bne_eq_false_iff_eq] at h3
        exact absurd h3 hne
    · constructor
      · rintro ⟨e, he, hW⟩
        rw [Option.some.injEq] at he
        rw [← he, newCompatError_What] at hW
        exact absurd hW (by decide)
      · rintro ⟨-, -, hdao, hne⟩
        rw [hdao, Bool.true_and, bne_eq_false_iff_eq] at h3
        exact absurd h3 hne
    · constructor
      · rintro ⟨e, he, hW⟩
        rw [Option.some.injEq] at he
        rw [← he, newCompatError_What] at hW
        exact absurd hW (by decide)
      · rintro ⟨-, -, hdao, hne⟩
        rw [hdao, Bool.true_and, bne_eq_false_iff_eq] at h3
        exact absurd h3 hne
    · constructor
      · rintro ⟨e, he, hW⟩
        rw [Option.some.injEq] at he
        rw [← he, newCompatError_What] at hW
        exact absurd hW (by decide)
      · rintro ⟨-, -, hdao, hne⟩
        rw [hdao, Bool.true_and, bne_eq_false_iff_eq] at h3
        exact absurd h3 hne
    · constructor
      · rintro ⟨e, he, hW⟩
        rw [Option.some.injEq] at he
        rw [← he, newCompatError_What] at hW
        exact absurd hW (by decide)
      · rintro ⟨-, -, hdao, hne⟩
        rw [hdao, Bool.true_and, bne_eq_false_iff_eq] at h3
        exact absurd h3 hne
    · constructor
      · rintro ⟨e, he, -⟩
        exact he.elim
      · rintro ⟨-, -, hdao, hne⟩
        rw [hdao, Bool.true_and, bne_eq_false_iff_eq] at h3
        exact absurd h3 hne
  · intro hno
    simp [checkCompatible, isForkIncompatible, configNumEqual_self, hno]

/-- Stored side of the support-flag witness. -/
def cfgDaoWitStored : ChainConfig := { cfgEmpty with daoForkBlock := some 3 }

/-- Candidate side of the support-flag witness: same schedule, opposite
support flag. -/
def cfgDaoWitCand : ChainConfig :=
  { cfgEmpty with daoForkBlock := some 3, daoForkSupport := true }

theorem dao_support_characterization_witness :
    ∃ e, checkCompatible cfgDaoWitStored cfgDaoWitCand 10 = some e ∧
      e.What = "DAO fork support flag" :=
  (dao_support_characterization cfgDaoWitStored cfgDaoWitCand 10 true).1.mpr
    ⟨by decide, by decide, by decide, by decide⟩

/- ------------------------------------------------------------------ -/
/- C7: the beneficiary accessor Ruebase                               -/
/- ------------------------------------------------------------------ -/

/-- A service state with no explicit beneficiary, an empty first wallet
and a second wallet holding the account with address 7. -/
def rueTwoWallets : Rue :=
  { ruebase := 0,
    accountManager :=
      { wallets := [{ accounts := [] }, { accounts := [{ Address := 7 }] }] } }

/-- C7 counterexample: with no explicit beneficiary, the first managed
account (address 7, in the second wallet) exists, yet `Ruebase` fails —
the code only inspects the first wallet, refuting "otherwise it returns
the first managed account's address". -/
theorem ruebase_skips_later_wallets_counterexample :
    rueTwoWallets.ruebase = 0 ∧
    firstManagedAccount rueTwoWallets.accountManager = some 7 ∧
    (Rue.Ruebase rueTwoWallets).1 =
      Except.error "ruebase must be explicitly specified" :=
  ⟨rfl, rfl, rfl⟩

/-- C7 amended: `Ruebase` returns the explicit beneficiary whenever it is
non-zero; otherwise it returns the first account of the *first* wallet and
caches it, failing when there is no wallet or the first wallet has no
accounts; once a non-zero address has been returned, a second call returns
it from the cache without consulting the account manager (its wallets may
be replaced arbitrarily without changing the result). -/
theorem ruebase_characterization (s : Rue) (w : Wallet) (ws : List Wallet)
    (a : Account) (rest : List Account) (v : Nat) (m' : AccountsManager) :
    (s.ruebase ≠ 0 → s.Ruebase = (Except.ok s.ruebase, s)) ∧
    (s.ruebase = 0 → s.accountManager.wallets = [] →
      s.Ruebase = (Except.error "ruebase must be explicitly specified", s)) ∧
    (s.ruebase = 0 → s.accountManager.wallets = w :: ws → w.accounts = [] →
      s.Ruebase = (Except.error "ruebase must be explicitly specified", s)) ∧
    (s.ruebase = 0 → s.accountManager.wallets = w :: ws →
      w.accounts = a :: rest →
      s.Ruebase = (Except.ok a.Address, { s with ruebase := a.Address })) ∧
    ((s.Ruebase).1 = Except.ok v → v ≠ 0 →
      Rue.Ruebase { (s.Ruebase).2 with accountManager := m' } =
        (Except.ok v, { (s.Ruebase).2 with accountManager := m' })) := by
  refine ⟨?_, ?_, ?_, ?_, ?_⟩
  · intro h
    simp [Rue.Ruebase, h]
  · intro h0 hw
    simp [Rue.Ruebase, h0, Rue.AccountManager, AccountsManager.Wallets, hw]
  · intro h0 hw ha
    simp [Rue.Ruebase, h0, Rue.AccountManager, AccountsManager.Wallets, hw,
      Wallet.Accounts, ha]
  · intro h0 hw ha
    simp [Rue.Ruebase, h0, Rue.AccountManager, AccountsManager.Wallets, hw,
      Wallet.Accounts, ha]
  · intro hv hvne
    by_cases h0 : s.ruebase = 0
    · cases hw : s.accountManager.wallets with
      | nil =>
        rw [show (Rue.Ruebase s).1 = Except.error
              "ruebase must be explicitly specified" by
            simp [Rue.Ruebase, h0, Rue.AccountManager, AccountsManager.Wallets,
              hw]] at hv
        exact Except.noConfusion hv
      | cons w1 ws1 =>
        cases ha : w1.accounts with
        | nil =>
          rw [show (Rue.Ruebase s).1 = Except.error
                "ruebase must be explicitly specified" by
              simp [Rue.Ruebase, h0, Rue.AccountManager,
                AccountsManager.Wallets, hw, Wallet.Accounts, ha]] at hv
          exact Except.noConfusion hv
        | cons a1 rest1 =>
          have hres : s.Ruebase =
              (Except.ok a1.Address, { s with ruebase := a1.Address }) := by
            simp [Rue.Ruebase, h0, Rue.AccountManager, AccountsManager.Wallets,
              hw, Wallet.Accounts, ha]
          rw [hres] at hv ⊢
          have hva : v = a1.Address := by
            simpa using hv.symm
          subst hva
          simp [Rue.Ruebase, hvne]
    · have hres : s.Ruebase = (Except.ok s.ruebase, s) := by
        simp [Rue.Ruebase, h0]
      rw [hres] at hv ⊢
      have hva : v = s.ruebase := by
        simpa using hv.symm
      subst hva
      simp [Rue.Ruebase, hvne]

/-- A service state with no explicit beneficiary and one wallet holding
the account with address 9. -/
def rueOneAccount : Rue :=
  { ruebase := 0,
    accountManager := { wallets := [{ accounts := [{ Address := 9 }] }] } }

theorem ruebase_characterization_witness :
    Rue.Ruebase rueOneAccount =
      (Except.ok 9, { rueOneAccount with ruebase := 9 }) ∧
    Rue.Ruebase { ruebase := 9, accountManager := { wallets := [] } } =
      (Except.ok 9, { ruebase := 9, accountManager := { wallets := [] } }) := by
  have h := ruebase_characterization rueOneAccount
    { accounts := [{ Address := 9 }] } [] { Address := 9 } [] 9
    { wallets := [] }
  refine ⟨h.2.2.2.1 rfl rfl rfl, ?_⟩
  have h1 := h.2.2.2.1 rfl rfl rfl
  have hc := h.2.2.2.2 (by rw [h1]) (by decide)
  rw [h1] at hc
  exact hc

/- ------------------------------------------------------------------ -/
/- C2, C10: rewind-target characterization                            -/
/- ------------------------------------------------------------------ -/

theorem newCompatError_StoredConfig (w : String) (s n : Option Int) :
    (newCompatError w s n).StoredConfig = s := rfl

theorem newCompatError_NewConfig (w : String) (s n : Option Int) :
    (newCompatError w s n).NewConfig = n := rfl

/-- Every error produced by a reconcile pass records the two fork heights
it compared, and its rewind target is `rewindSpec` of that pair. -/
theorem cc_rewindSpec {c n : ChainConfig} {hd : Int} {e : ConfigCompatError}
    (hc : checkCompatible c n hd = some e) :
    e.RewindTo = rewindSpec e.StoredConfig e.NewConfig := by
  unfold checkCompatible at hc
  split_ifs at hc <;>
    first
      | exact Option.noConfusion hc
      | (rw [Option.some.injEq] at hc
         subst hc
         simp only [newCompatError_StoredConfig, newCompatError_NewConfig,
           newCompatError_rewindTo])

/-- Stored config for the off-by-one example. -/
def cfgHom100 : ChainConfig := { cfgEmpty with homesteadBlock := some 100 }

/-- C2 counterexample: stored Homestead height undefined, candidate
Homestead at 200, head 250: reconcile reports a conflict whose rewind
target is 199, not the candidate height 200 as the claim stated. -/
theorem rewind_nil_stored_counterexample :
    cfgEmpty.homesteadBlock = none ∧
    cfgHom200.homesteadBlock = some 200 ∧
    CheckCompatible cfgEmpty cfgHom200 250 =
      some { What := "Homestead fork block", StoredConfig := none,
             NewConfig := some 200, RewindTo := 199 } ∧
    (199 : Nat) ≠ 200 := by decide

/-- C2 amended: on every reported conflict the rewind target equals
`rewindSpec` of the stored and candidate heights of the conflicting fork:
the `uint64` value `g - 1` where the governing height `g` is the candidate
height when the stored height is undefined, the stored height when the
candidate is undefined, and the smaller of the two when both are defined
(`0` when `g` is not positive). -/
theorem rewind_target_characterization (c n : ChainConfig) (hd : Int)
    (e : ConfigCompatError) (hc : checkCompatible c n hd = some e) :
    e.RewindTo = rewindSpec e.StoredConfig e.NewConfig :=
  cc_rewindSpec hc

/-- The error of the spec's worked example (stored 100, candidate 200). -/
def cErr100200 : ConfigCompatError :=
  { What := "Homestead fork block", StoredConfig := some 100,
    NewConfig := some 200, RewindTo := 99 }

theorem rewind_target_characterization_witness :
    checkCompatible cfgHom100 cfgHom200 150 = some cErr100200 ∧
    CheckCompatible cfgHom100 cfgHom200 150 = some cErr100200 ∧
    cErr100200.RewindTo = rewindSpec cErr100200.StoredConfig cErr100200.NewConfig ∧
    cErr100200.RewindTo = 99 :=
  ⟨by decide, by decide,
   rewind_target_characterization cfgHom100 cfgHom200 150 cErr100200 (by decide),
   by decide⟩

theorem rewindSpec_of_govern_none {s n : Option Int} (h : govern s n = none) :
    rewindSpec s n = 0 := by
  unfold rewindSpec
  rw [h]

/-- A conflicting boundary's governing height never exceeds the head. -/
theorem govern_le_of_incompatible {s n : Option Int} {hd : Int}
    (h : isForkIncompatible s n (some hd) = true) :
    ∀ g : Int, govern s n = some g → g ≤ hd := by
  intro g hg
  rcases s with - | a <;> rcases n with - | y
  · simp [govern] at hg
  · simp [govern] at hg
    simp [isForkIncompatible, isForked, configNumEqual] at h
    omega
  · simp [govern] at hg
    simp [isForkIncompatible, isForked, configNumEqual] at h
    omega
  · simp [govern] at hg
    simp [isForkIncompatible, isForked, configNumEqual] at h
    have h1 := min_le_left a y
    have h2 := min_le_right a y
    rcases h with ⟨h3 | h3, -⟩ <;> omega

/-- Same bound when only the stored side is known to be forked (the DAO
support-flag and chain-id checks). -/
theorem govern_le_of_isForked_left {s n : Option Int} {hd : Int}
    (h : isForked s (some hd) = true) :
    ∀ g : Int, govern s n = some g → g ≤ hd := by
  intro g hg
  rcases s with - | a
  · simp [isForked] at h
  · simp [isForked] at h
    rcases n with - | y <;> simp [govern] at hg
    · omega
    · have h1 := min_le_left a y
      omega

/-- Every error returned by a reconcile pass has its governing height
bounded by the head at which the pass ran. -/
theorem cc_govern_le {c n : ChainConfig} {hd : Int} {e : ConfigCompatError}
    (hc : checkCompatible c n hd = some e) :
    ∀ g : Int, govern e.StoredConfig e.NewConfig = some g → g ≤ hd := by
  unfold checkCompatible at hc
  split_ifs at hc with h1 h2 h3 h4 h5 h6 h7 h8
  · rw [Option.some.injEq] at hc; subst hc
    simp only [newCompatError_StoredConfig, newCompatError_NewConfig]
    exact govern_le_of_incompatible h1
  · rw [Option.some.injEq] at hc; subst hc
    simp only [newCompatError_StoredConfig, newCompatError_NewConfig]
    exact govern_le_of_incompatible h2
  · rw [Option.some.injEq] at hc; subst hc
    simp only [newCompatError_StoredConfig, newCompatError_NewConfig]
    rw [Bool.and_eq_true] at h3
    exact govern_le_of_isForked_left h3.1
  · rw [Option.some.injEq] at hc; subst hc
    simp only [newCompatError_StoredConfig, newCompatError_NewConfig]
    exact govern_le_of_incompatible h4
  · rw [Option.some.injEq] at hc; subst hc
    simp only [newCompatError_StoredConfig, newCompatError_NewConfig]
    exact govern_le_of_incompatible h5
  · rw [Option.some.injEq] at hc; subst hc
    simp only [newCompatError_StoredConfig, newCompatError_NewConfig]
    exact govern_le_of_incompatible h6
  · rw [Option.some.injEq] at hc; subst hc
    simp only [newCompatError_StoredConfig, newCompatError_NewConfig]
    rw [Bool.and_eq_true] at h7
    exact govern_le_of_isForked_left h7.1
  · rw [Option.some.injEq] at hc; subst hc
    simp only [newCompatError_StoredConfig, newCompatError_NewConfig]
    exact govern_le_of_incompatible h8

/-- If the governing height is head-bounded and the rewind value hits the
head exactly, the head must be zero. -/
theorem rewindSpec_eq_head {s n : Option Int} {b : Nat}
    (h : ∀ g : Int, govern s n = some g → g ≤ (b : Int))
    (he : rewindSpec s n = b) : b = 0 := by
  cases hg : govern s n with
  | none =>
    rw [rewindSpec_of_govern_none hg] at he
    omega
  | some g =>
    have hgb := h g hg
    by_cases hpos : 0 < g
    · have hval : rewindSpec s n = (g.toNat - 1) % 18446744073709551616 := by
        simp only [rewindSpec, hg]
        rw [if_pos hpos]
      rw [hval] at he
      have hm : (g.toNat - 1) % 18446744073709551616 ≤ g.toNat - 1 :=
        Nat.mod_le _ _
      omega
    · have hval : rewindSpec s n = 0 := by
        simp only [rewindSpec, hg]
        rw [if_neg hpos]
      rw [hval] at he
      omega

theorem cc_rewindTo_le {c n : ChainConfig} {b : Nat} {e : ConfigCompatError}
    (hc : checkCompatible c n ((b : Nat) : Int) = some e) : e.RewindTo ≤ b := by
  rw [cc_rewindSpec hc]
  exact rewindSpec_le (cc_govern_le hc)

theorem cc_rewindTo_eq_head {c n : ChainConfig} {b : Nat} {e : ConfigCompatError}
    (hc : checkCompatible c n ((b : Nat) : Int) = some e)
    (h : e.RewindTo = b) : b = 0 :=
  rewindSpec_eq_head (cc_govern_le hc) (by rw [← cc_rewindSpec hc]; exact h)

/-- Every error coming out of the iteration was produced by a single
reconcile pass run at some head at most the starting head. -/
theorem loop_source (c n : ChainConfig) (H : Nat) :
    ∀ (fuel : Nat) (lasterr : Option ConfigCompatError) (b : Nat),
      b ≤ H →
      (∀ l, lasterr = some l →
        ∃ bp, bp ≤ H ∧ checkCompatible c n ((bp : Nat) : Int) = some l) →
      ∀ e, checkCompatibleLoop c n fuel lasterr b = some e →
        ∃ bp, bp ≤ H ∧ checkCompatible c n ((bp : Nat) : Int) = some e := by
  intro fuel
  induction fuel with
  | zero =>
    intro lasterr b hb hl e he
    simp only [checkCompatibleLoop] at he
    exact hl e he
  | succ f ih =>
    intro lasterr b hb hl e he
    simp only [checkCompatibleLoop] at he
    cases lasterr with
    | none =>
      cases hcc : checkCompatible c n ((b : Nat) : Int) with
      | none =>
        rw [hcc] at he
        simp at he
      | some e2 =>
        rw [hcc] at he
        simp only at he
        have hr := cc_rewindTo_le hcc
        refine ih (some e2) e2.RewindTo (le_trans hr hb) ?_ e he
        intro l hl2
        obtain rfl := Option.some.inj hl2
        exact ⟨b, hb, hcc⟩
    | some l0 =>
      cases hcc : checkCompatible c n ((b : Nat) : Int) with
      | none =>
        rw [hcc] at he
        simp only at he
        obtain rfl := Option.some.inj he
        exact hl l0 rfl
      | some e2 =>
        rw [hcc] at he
        simp only at he
        by_cases heq : e2.RewindTo = l0.RewindTo
        · rw [if_pos heq] at he
          obtain rfl := Option.some.inj he
          exact hl l0 rfl
        · rw [if_neg heq] at he
          have hr := cc_rewindTo_le hcc
          refine ih (some e2) e2.RewindTo (le_trans hr hb) ?_ e he
          intro l hl2
          obtain rfl := Option.some.inj hl2
          exact ⟨b, hb, hcc⟩

/-- C10: the rewind target of every error returned for a `uint64` head is
computed without underflow: it is exactly `g - 1` for a positive governing
height `g` (so in particular strictly below `g`), and `0` when the
governing height is nil or zero. -/
theorem rewindTo_no_underflow (c n : ChainConfig) (H : Nat)
    (e : ConfigCompatError) (hH : H < 18446744073709551616)
    (he : CheckCompatible c n H = some e) :
    (govern e.StoredConfig e.NewConfig = none → e.RewindTo = 0) ∧
    ∀ g : Int, govern e.StoredConfig e.NewConfig = some g →
      (0 < g → (e.RewindTo : Int) = g - 1 ∧ (e.RewindTo : Int) < g) ∧
      (g = 0 → e.RewindTo = 0) := by
  obtain ⟨bp, hbp, hcc⟩ :=
    loop_source c n H (H + 2) none H le_rfl
      (fun l hl => Option.noConfusion hl) e he
  have hspec := cc_rewindSpec hcc
  have hgle := cc_govern_le hcc
  constructor
  · intro hg
    rw [hspec, rewindSpec_of_govern_none hg]
  · intro g hg
    have hgb : g ≤ (bp : Int) := hgle g hg
    constructor
    · intro hpos
      have hexact : (rewindSpec e.StoredConfig e.NewConfig : Int) = g - 1 := by
        simp only [rewindSpec, hg, if_pos hpos]
        have h2 : g.toNat - 1 < 18446744073709551616 := by omega
        rw [Nat.mod_eq_of_lt h2]
        omega
      rw [hspec]
      refine ⟨hexact, ?_⟩
      rw [hexact]
      omega
    · intro h0
      rw [hspec]
      simp [rewindSpec, hg, h0]

theorem rewindTo_no_underflow_witness :
    (cErr100200.RewindTo : Int) = 100 - 1 ∧ (cErr100200.RewindTo : Int) < 100 :=
  ((rewindTo_no_underflow cfgHom100 cfgHom200 150 cErr100200 (by decide)
      (by decide)).2 100 (by decide)).1 (by decide)

/- ------------------------------------------------------------------ -/
/- C3: termination and convergence of the fixed-point iteration       -/
/- ------------------------------------------------------------------ -/

/-- Modelled from the spec: the rewind targets of all fork boundaries on
which two schedules conflict at head `hd` — one entry per conflicting
check of the reconcile pass, in check order. -/
def conflictRewinds (c n : ChainConfig) (hd : Int) : List Nat :=
  (if isForkIncompatible c.homesteadBlock n.homesteadBlock (some hd) then
    [rewindSpec c.homesteadBlock n.homesteadBlock] else []) ++
  (if isForkIncompatible c.daoForkBlock n.daoForkBlock (some hd) then
    [rewindSpec c.daoForkBlock n.daoForkBlock] else []) ++
  (if c.IsDAOFork (some hd) && (c.daoForkSupport != n.daoForkSupport) then
    [rewindSpec c.daoForkBlock n.daoForkBlock] else []) ++
  (if isForkIncompatible c.eip150Block n.eip150Block (some hd) then
    [rewindSpec c.eip150Block n.eip150Block] else []) ++
  (if isForkIncompatible c.eip155Block n.eip155Block (some hd) then
    [rewindSpec c.eip155Block n.eip155Block] else []) ++
  (if isForkIncompatible c.eip158Block n.eip158Block (some hd) then
    [rewindSpec c.eip158Block n.eip158Block] else []) ++
  (if c.IsEIP158 (some hd) && !configNumEqual c.chainId n.chainId then
    [rewindSpec c.eip158Block n.eip158Block] else []) ++
  (if isForkIncompatible c.byzantiumBlock n.byzantiumBlock (some hd) then
    [rewindSpec c.byzantiumBlock n.byzantiumBlock] else [])

theorem mem_if_single {r x : Nat} {b : Bool} :
    (r ∈ if b then [x] else ([] : List Nat)) ↔ (b = true ∧ r = x) := by
  cases b <;> simp

theorem mem_conflictRewinds {c n : ChainConfig} {hd : Int} {r : Nat} :
    r ∈ conflictRewinds c n hd ↔
      (isForkIncompatible c.homesteadBlock n.homesteadBlock (some hd) = true ∧
        r = rewindSpec c.homesteadBlock n.homesteadBlock) ∨
      (isForkIncompatible c.daoForkBlock n.daoForkBlock (some hd) = true ∧
        r = rewindSpec c.daoForkBlock n.daoForkBlock) ∨
      ((c.IsDAOFork (some hd) && (c.daoForkSupport != n.daoForkSupport)) = true ∧
        r = rewindSpec c.daoForkBlock n.daoForkBlock) ∨
      (isForkIncompatible c.eip150Block n.eip150Block (some hd) = true ∧
        r = rewindSpec c.eip150Block n.eip150Block) ∨
      (isForkIncompatible c.eip155Block n.eip155Block (some hd) = true ∧
        r = rewindSpec c.eip155Block n.eip155Block) ∨
      (isForkIncompatible c.eip158Block n.eip158Block (some hd) = true ∧
        r = rewindSpec c.eip158Block n.eip158Block) ∨
      ((c.IsEIP158 (some hd) && !configNumEqual c.chainId n.chainId) = true ∧
        r = rewindSpec c.eip158Block n.eip158Block) ∨
      (isForkIncompatible c.byzantiumBlock n.byzantiumBlock (some hd) = true ∧
        r = rewindSpec c.byzantiumBlock n.byzantiumBlock) := by
  simp only [conflictRewinds, List.mem_append, mem_if_single, or_assoc]

theorem isForked_mono {s : Option Int} {b B : Int}
    (h : isForked s (some b) = true) (hbB : b ≤ B) :
    isForked s (some B) = true := by
  rcases s with - | a <;> simp [isForked] at *
  omega

theorem isForkIncompatible_mono {s n : Option Int} {b B : Int}
    (h : isForkIncompatible s n (some b) = true) (hbB : b ≤ B) :
    isForkIncompatible s n (some B) = true := by
  rw [isForkIncompatible, Bool.and_eq_true, Bool.or_eq_true] at h ⊢
  refine ⟨?_, h.2⟩
  rcases h.1 with h1 | h1
  · exact Or.inl (isForked_mono h1 hbB)
  · exact Or.inr (isForked_mono h1 hbB)

/-- Conflicts only grow as the head rises. -/
theorem conflictRewinds_mono {c n : ChainConfig} {b B : Int} {r : Nat}
    (h : r ∈ conflictRewinds c n b) (hbB : b ≤ B) :
    r ∈ conflictRewinds c n B := by
  rw [mem_conflictRewinds] at h ⊢
  rcases h with h | h | h | h | h | h | h | h
  · exact Or.inl ⟨isForkIncompatible_mono h.1 hbB, h.2⟩
  · exact Or.inr (Or.inl ⟨isForkIncompatible_mono h.1 hbB, h.2⟩)
  · refine Or.inr (Or.inr (Or.inl ⟨?_, h.2⟩))
    rw [Bool.and_eq_true] at h ⊢
    exact ⟨isForked_mono h.1.1 hbB, h.1.2⟩
  · exact Or.inr (Or.inr (Or.inr (Or.inl
      ⟨isForkIncompatible_mono h.1 hbB, h.2⟩)))
  · exact Or.inr (Or.inr (Or.inr (Or.inr (Or.inl
      ⟨isForkIncompatible_mono h.1 hbB, h.2⟩))))
  · exact Or.inr (Or.inr (Or.inr (Or.inr (Or.inr (Or.inl
      ⟨isForkIncompatible_mono h.1 hbB, h.2⟩)))))
  · refine Or.inr (Or.inr (Or.inr (Or.inr (Or.inr (Or.inr (Or.inl
      ⟨?_, h.2⟩))))))
    rw [Bool.and_eq_true] at h ⊢
    exact ⟨isForked_mono h.1.1 hbB, h.1.2⟩
  · exact Or.inr (Or.inr (Or.inr (Or.inr (Or.inr (Or.inr (Or.inr
      ⟨isForkIncompatible_mono h.1 hbB, h.2⟩))))))

theorem configNumEqual_eq {x y : Option Int} :
    configNumEqual x y = true ↔ x = y := by
  rcases x with - | a <;> rcases y with - | b <;> simp [configNumEqual]

theorem govern_isSome_of_incompatible {s n : Option Int} {hd : Option Int}
    (h : isForkIncompatible s n hd = true) : ∃ g : Int, govern s n = some g := by
  rcases s with - | a <;> rcases n with - | y
  · simp [isForkIncompatible, configNumEqual] at h
  · exact ⟨y, rfl⟩
  · exact ⟨a, rfl⟩
  · exact ⟨min a y, rfl⟩

theorem govern_isSome_of_isForked_left {s : Option Int} (n : Option Int)
    {hd : Option Int} (h : isForked s hd = true) :
    ∃ g : Int, govern s n = some g := by
  rcases s with - | a
  · simp [isForked] at h
  · rcases n with - | y
    · exact ⟨a, rfl⟩
    · exact ⟨min a y, rfl⟩

/-- A governing height at most `b` forces one of the two schedules to be
forked at `b`. -/
theorem govern_forked {s n : Option Int} {b g : Int} (hg : govern s n = some g)
    (hgb : g ≤ b) : (isForked s (some b) || isForked n (some b)) = true := by
  rcases s with - | a <;> rcases n with - | y <;> simp [govern] at hg
  · simp [isForked]
    omega
  · simp [isForked]
    omega
  · simp [isForked]
    rcases le_total a y with ht | ht
    · rw [min_eq_left ht] at hg
      left
      omega
    · rw [min_eq_right ht] at hg
      right
      omega

/-- Below `2 ^ 64` the rewind value decodes the governing height: a rewind
value below `b` forces the governing height to be at most `b`. -/
theorem rewindSpec_lt_imp_govern_le {s n : Option Int} {g : Int} {Hb b : Nat}
    (hg : govern s n = some g) (hgH : g ≤ (Hb : Int))
    (hH : Hb < 18446744073709551616) (hlt : rewindSpec s n < b) :
    g ≤ (b : Int) := by
  by_cases hpos : 0 < g
  · have hval : rewindSpec s n = (g.toNat - 1) % 18446744073709551616 := by
      simp only [rewindSpec, hg]
      rw [if_pos hpos]
    have hlt2 : g.toNat - 1 < 18446744073709551616 := by omega
    rw [hval, Nat.mod_eq_of_lt hlt2] at hlt
    omega
  · omega

theorem incompatible_persist {s n : Option Int} {H b : Nat}
    (hH : H < 18446744073709551616)
    (hc : isForkIncompatible s n (some ((H : Nat) : Int)) = true)
    (hlt : rewindSpec s n < b) :
    isForkIncompatible s n (some ((b : Nat) : Int)) = true := by
  obtain ⟨g, hg⟩ := govern_isSome_of_incompatible hc
  have hgH := govern_le_of_incompatible hc g hg
  have hgb := rewindSpec_lt_imp_govern_le hg hgH hH hlt
  rw [isForkIncompatible, Bool.and_eq_true] at hc ⊢
  exact ⟨govern_forked hg hgb, hc.2⟩

/-- Any conflicting boundary at head `H` whose rewind value lies strictly
below `b` is still conflicting at head `b` (possibly through the block
check of the same fork when a flag check contributed the value). -/
theorem conflictRewinds_persist {c n : ChainConfig} {H b : Nat} {r : Nat}
    (hH : H < 18446744073709551616)
    (hr : r ∈ conflictRewinds c n ((H : Nat) : Int)) (hlt : r < b) :
    r ∈ conflictRewinds c n ((b : Nat) : Int) := by
  rw [mem_conflictRewinds] at hr ⊢
  rcases hr with h | h | h | h | h | h | h | h
  · exact Or.inl ⟨incompatible_persist hH h.1 (h.2 ▸ hlt), h.2⟩
  · exact Or.inr (Or.inl ⟨incompatible_persist hH h.1 (h.2 ▸ hlt), h.2⟩)
  · rcases h with ⟨h3, hrv⟩
    rw [Bool.and_eq_true] at h3
    obtain ⟨hdao, hbne⟩ := h3
    obtain ⟨g, hg⟩ := govern_isSome_of_isForked_left n.daoForkBlock hdao
    have hgH := govern_le_of_isForked_left hdao g hg
    have hgb := rewindSpec_lt_imp_govern_le hg hgH hH (hrv ▸ hlt)
    cases hEq : configNumEqual c.daoForkBlock n.daoForkBlock with
    | true =>
      have hxy : c.daoForkBlock = n.daoForkBlock := configNumEqual_eq.mp hEq
      have hor := govern_forked hg hgb
      rw [← hxy, Bool.or_self] at hor
      refine Or.inr (Or.inr (Or.inl ⟨?_, hrv⟩))
      rw [Bool.and_eq_true]
      exact ⟨hor, hbne⟩
    | false =>
      refine Or.inr (Or.inl ⟨?_, hrv⟩)
      rw [isForkIncompatible, Bool.and_eq_true]
      refine ⟨govern_forked hg hgb, ?_⟩
      rw [hEq]
      rfl
  · exact Or.inr (Or.inr (Or.inr (Or.inl
      ⟨incompatible_persist hH h.1 (h.2 ▸ hlt), h.2⟩)))
  · exact Or.inr (Or.inr (Or.inr (Or.inr (Or.inl
      ⟨incompatible_persist hH h.1 (h.2 ▸ hlt), h.2⟩))))
  · exact Or.inr (Or.inr (Or.inr (Or.inr (Or.inr (Or.inl
      ⟨incompatible_persist hH h.1 (h.2 ▸ hlt), h.2⟩)))))
  · rcases h with ⟨h7, hrv⟩
    rw [Bool.and_eq_true] at h7
    obtain ⟨h158, hid⟩ := h7
    obtain ⟨g, hg⟩ := govern_isSome_of_isForked_left n.eip158Block h158
    have hgH := govern_le_of_isForked_left h158 g hg
    have hgb := rewindSpec_lt_imp_govern_le hg hgH hH (hrv ▸ hlt)
    cases hEq : configNumEqual c.eip158Block n.eip158Block with
    | true =>
      have hxy : c.eip158Block = n.eip158Block := configNumEqual_eq.mp hEq
      have hor := govern_forked hg hgb
      rw [← hxy, Bool.or_self] at hor
      refine Or.inr (Or.inr (Or.inr (Or.inr (Or.inr (Or.inr (Or.inl
        ⟨?_, hrv⟩))))))
      rw [Bool.and_eq_true]
      exact ⟨hor, hid⟩
    | false =>
      refine Or.inr (Or.inr (Or.inr (Or.inr (Or.inr (Or.inl ⟨?_, hrv⟩)))))
      rw [isForkIncompatible, Bool.and_eq_true]
      refine ⟨govern_forked hg hgb, ?_⟩
      rw [hEq]
      rfl
  · exact Or.inr (Or.inr (Or.inr (Or.inr (Or.inr (Or.inr (Or.inr
      ⟨incompatible_persist hH h.1 (h.2 ▸ hlt), h.2⟩))))))

/-- The error returned by a reconcile pass is one of the conflicting
boundaries at that head, with its rewind value. -/
theorem cc_mem_CR {c n : ChainConfig} {hd : Int} {e : ConfigCompatError}
    (hc : checkCompatible c n hd = some e) :
    e.RewindTo ∈ conflictRewinds c n hd := by
  rw [mem_conflictRewinds]
  unfold checkCompatible at hc
  split_ifs at hc with h1 h2 h3 h4 h5 h6 h7 h8
  · rw [Option.some.injEq] at hc; subst hc
    exact Or.inl ⟨h1, newCompatError_rewindTo _ _ _⟩
  · rw [Option.some.injEq] at hc; subst hc
    exact Or.inr (Or.inl ⟨h2, newCompatError_rewindTo _ _ _⟩)
  · rw [Option.some.injEq] at hc; subst hc
    exact Or.inr (Or.inr (Or.inl ⟨h3, newCompatError_rewindTo _ _ _⟩))
  · rw [Option.some.injEq] at hc; subst hc
    exact Or.inr (Or.inr (Or.inr (Or.inl ⟨h4, newCompatError_rewindTo _ _ _⟩)))
  · rw [Option.some.injEq] at hc; subst hc
    exact Or.inr (Or.inr (Or.inr (Or.inr (Or.inl
      ⟨h5, newCompatError_rewindTo _ _ _⟩))))
  · rw [Option.some.injEq] at hc; subst hc
    exact Or.inr (Or.inr (Or.inr (Or.inr (Or.inr (Or.inl
      ⟨h6, newCompatError_rewindTo _ _ _⟩)))))
  · rw [Option.some.injEq] at hc; subst hc
    exact Or.inr (Or.inr (Or.inr (Or.inr (Or.inr (Or.inr (Or.inl
      ⟨h7, newCompatError_rewindTo _ _ _⟩))))))
  · rw [Option.some.injEq] at hc; subst hc
    exact Or.inr (Or.inr (Or.inr (Or.inr (Or.inr (Or.inr (Or.inr
      ⟨h8, newCompatError_rewindTo _ _ _⟩))))))

theorem if_single_nil {x : Nat} {b : Bool} :
    (if b then [x] else ([] : List Nat)) = [] ↔ b = false := by
  cases b <;> simp

theorem CR_eq_nil_iff {c n : ChainConfig} {hd : Int} :
    conflictRewinds c n hd = [] ↔
      (isForkIncompatible c.homesteadBlock n.homesteadBlock (some hd) = false ∧
       isForkIncompatible c.daoForkBlock n.daoForkBlock (some hd) = false ∧
       (c.IsDAOFork (some hd) && (c.daoForkSupport != n.daoForkSupport)) = false ∧
       isForkIncompatible c.eip150Block n.eip150Block (some hd) = false ∧
       isForkIncompatible c.eip155Block n.eip155Block (some hd) = false ∧
       isForkIncompatible c.eip158Block n.eip158Block (some hd) = false ∧
       (c.IsEIP158 (some hd) && !configNumEqual c.chainId n.chainId) = false ∧
       isForkIncompatible c.byzantiumBlock n.byzantiumBlock (some hd) = false) := by
  simp only [conflictRewinds, List.append_eq_nil, if_single_nil, and_assoc]

theorem cc_none_iff_conds {c n : ChainConfig} {hd : Int} :
    checkCompatible c n hd = none ↔
      (isForkIncompatible c.homesteadBlock n.homesteadBlock (some hd) = false ∧
       isForkIncompatible c.daoForkBlock n.daoForkBlock (some hd) = false ∧
       (c.IsDAOFork (some hd) && (c.daoForkSupport != n.daoForkSupport)) = false ∧
       isForkIncompatible c.eip150Block n.eip150Block (some hd) = false ∧
       isForkIncompatible c.eip155Block n.eip155Block (some hd) = false ∧
       isForkIncompatible c.eip158Block n.eip158Block (some hd) = false ∧
       (c.IsEIP158 (some hd) && !configNumEqual c.chainId n.chainId) = false ∧
       isForkIncompatible c.byzantiumBlock n.byzantiumBlock (some hd) = false) := by
  unfold checkCompatible
  split_ifs with h1 h2 h3 h4 h5 h6 h7 h8
  · simp [h1]
  · simp [h2]
  · simp [h3]
  · simp [h4]
  · simp [h5]
  · simp [h6]
  · simp [h7]
  · simp [h8]
  · simp only [Bool.not_eq_true] at h1 h2 h3 h4 h5 h6 h7 h8
    simp [h1, h2, h3, h4, h5, h6, h7, h8]

/-- A reconcile pass reports no error exactly when no boundary conflicts. -/
theorem cc_none_iff {c n : ChainConfig} {hd : Int} :
    checkCompatible c n hd = none ↔ conflictRewinds c n hd = [] := by
  rw [cc_none_iff_conds, CR_eq_nil_iff]

/-- The (at most six) rewind values any reconcile error of a given pair of
schedules can carry: one per compared boundary pair (the support-flag and
chain-id checks reuse the DAO and EIP158 pairs). -/
def rewindSet (c n : ChainConfig) : Finset Nat :=
  [rewindSpec c.homesteadBlock n.homesteadBlock,
   rewindSpec c.daoForkBlock n.daoForkBlock,
   rewindSpec c.eip150Block n.eip150Block,
   rewindSpec c.eip155Block n.eip155Block,
   rewindSpec c.eip158Block n.eip158Block,
   rewindSpec c.byzantiumBlock n.byzantiumBlock].toFinset

theorem cc_mem_rewindSet {c n : ChainConfig} {hd : Int} {e : ConfigCompatError}
    (hc : checkCompatible c n hd = some e) : e.RewindTo ∈ rewindSet c n := by
  unfold checkCompatible at hc
  split_ifs at hc <;>
    (rw [Option.some.injEq] at hc; subst hc;
     simp [rewindSet, newCompatError_rewindTo])

/-- How many possible rewind values lie strictly below `b`: the measure of
the fixed-point iteration. -/
def rewBelow (c n : ChainConfig) (b : Nat) : Nat :=
  ((rewindSet c n).filter (fun x => x < b)).card

theorem rewBelow_lt {c n : ChainConfig} {x b : Nat} (hx : x ∈ rewindSet c n)
    (hlt : x < b) : rewBelow c n x < rewBelow c n b := by
  apply Finset.card_lt_card
  have hsub : (rewindSet c n).filter (fun y => y < x) ⊆
      (rewindSet c n).filter (fun y => y < b) := by
    intro y hy
    rw [Finset.mem_filter] at hy ⊢
    exact ⟨hy.1, lt_trans hy.2 hlt⟩
  rw [Finset.ssubset_iff_of_subset hsub]
  refine ⟨x, Finset.mem_filter.mpr ⟨hx, hlt⟩, ?_⟩
  rw [Finset.mem_filter]
  rintro ⟨-, hxx⟩
  omega

theorem rewBelow_le_self (c n : ChainConfig) (b : Nat) : rewBelow c n b ≤ b := by
  have hsub : (rewindSet c n).filter (fun x => x < b) ⊆ Finset.range b := by
    intro y hy
    rw [Finset.mem_filter] at hy
    exact Finset.mem_range.mpr hy.2
  calc ((rewindSet c n).filter (fun x => x < b)).card
      ≤ (Finset.range b).card := Finset.card_le_card hsub
    _ = b := Finset.card_range b

theorem rewBelow_le_six (c n : ChainConfig) (b : Nat) : rewBelow c n b ≤ 6 := by
  calc ((rewindSet c n).filter (fun x => x < b)).card
      ≤ (rewindSet c n).card := Finset.card_filter_le _ _
    _ ≤ 6 := le_trans (List.toFinset_card_le _) (by simp)

/-- The iteration is insensitive to the fuel once the fuel exceeds the
number of distinct rewind values below the current head. -/
theorem loop_stable (c n : ChainConfig) :
    ∀ (b : Nat) (l : ConfigCompatError) (f1 f2 : Nat),
      l.RewindTo = b → rewBelow c n b + 1 ≤ f1 → rewBelow c n b + 1 ≤ f2 →
      checkCompatibleLoop c n f1 (some l) b = checkCompatibleLoop c n f2 (some l) b := by
  intro b
  induction b using Nat.strong_induction_on with
  | _ b ih =>
    intro l f1 f2 hl hf1 hf2
    obtain ⟨f1p, rfl⟩ : ∃ k, f1 = k + 1 := ⟨f1 - 1, by omega⟩
    obtain ⟨f2p, rfl⟩ : ∃ k, f2 = k + 1 := ⟨f2 - 1, by omega⟩
    simp only [checkCompatibleLoop]
    cases hcc : checkCompatible c n ((b : Nat) : Int) with
    | none => rfl
    | some e =>
      show (if e.RewindTo = l.RewindTo then some l
            else checkCompatibleLoop c n f1p (some e) e.RewindTo) =
          (if e.RewindTo = l.RewindTo then some l
            else checkCompatibleLoop c n f2p (some e) e.RewindTo)
      by_cases heq : e.RewindTo = l.RewindTo
      · rw [if_pos heq, if_pos heq]
      · rw [if_neg heq, if_neg heq]
        have hmem := cc_mem_rewindSet hcc
        have hle := cc_rewindTo_le hcc
        have hlt : e.RewindTo < b := by
          rw [hl] at heq
          omega
        have hm := rewBelow_lt hmem hlt
        exact ih e.RewindTo hlt e f1p f2p rfl (by omega) (by omega)

/-- From a state whose head is itself a conflicting rewind value, the
iteration returns an error carrying the minimum rewind value among all
boundaries conflicting at the original head `H`. -/
theorem loop_min (c n : ChainConfig) (H : Nat)
    (hH : H < 18446744073709551616) :
    ∀ (b : Nat) (l : ConfigCompatError) (f : Nat),
      l.RewindTo = b → b ≤ H → b ∈ conflictRewinds c n ((H : Nat) : Int) →
      b + 1 ≤ f →
      ∃ e, checkCompatibleLoop c n f (some l) b = some e ∧
        e.RewindTo ∈ conflictRewinds c n ((H : Nat) : Int) ∧
        ∀ r ∈ conflictRewinds c n ((H : Nat) : Int), e.RewindTo ≤ r := by
  intro b
  induction b using Nat.strong_induction_on with
  | _ b ih =>
    intro l f hl hbH hbCR hf
    obtain ⟨fp, rfl⟩ : ∃ k, f = k + 1 := ⟨f - 1, by omega⟩
    cases hcc : checkCompatible c n ((b : Nat) : Int) with
    | none =>
      have hred : checkCompatibleLoop c n (fp + 1) (some l) b = some l := by
        simp only [checkCompatibleLoop, hcc]
      refine ⟨l, hred, by rw [hl]; exact hbCR, ?_⟩
      intro r hr
      rw [hl]
      by_contra hcon
      push_neg at hcon
      have hmem : r ∈ conflictRewinds c n ((b : Nat) : Int) :=
        conflictRewinds_persist hH hr hcon
      have hnil : conflictRewinds c n ((b : Nat) : Int) = [] := cc_none_iff.mp hcc
      rw [hnil] at hmem
      exact absurd hmem (List.not_mem_nil r)
    | some e =>
      have hred : checkCompatibleLoop c n (fp + 1) (some l) b =
          if e.RewindTo = l.RewindTo then some l
          else checkCompatibleLoop c n fp (some e) e.RewindTo := by
        simp only [checkCompatibleLoop, hcc]
      by_cases heq : e.RewindTo = l.RewindTo
      · rw [hred, if_pos heq]
        have hb0 : b = 0 := cc_rewindTo_eq_head hcc (by rw [heq, hl])
        refine ⟨l, rfl, by rw [hl]; exact hbCR, ?_⟩
        intro r hr
        rw [hl, hb0]
        omega
      · rw [hred, if_neg heq]
        have hle := cc_rewindTo_le hcc
        have hlt : e.RewindTo < b := by
          rw [hl] at heq
          omega
        have hmem_b := cc_mem_CR hcc
        have hmem_H : e.RewindTo ∈ conflictRewinds c n ((H : Nat) : Int) :=
          conflictRewinds_mono hmem_b (Nat.cast_le.mpr hbH)
        exact ih e.RewindTo hlt e fp rfl (by omega) hmem_H (by omega)

/-- C3: the fixed-point iteration of CheckCompatible is fuel-insensitive
beyond a constant bound (10, two more than the number of compatibility
checks), so it terminates within a number of steps bounded by the
fork-boundary count; when no boundary conflicts at the starting `uint64`
head it returns nil, and otherwise the returned error carries the minimum
rewind height across all boundaries conflicting at that head. -/
theorem fixedpoint_converges_to_min (c n : ChainConfig) (H fuel : Nat)
    (hH : H < 18446744073709551616) (hfuel : 10 ≤ fuel) :
    (checkCompatibleLoop c n fuel none H = CheckCompatible c n H) ∧
    (conflictRewinds c n ((H : Nat) : Int) = [] →
      CheckCompatible c n H = none) ∧
    (conflictRewinds c n ((H : Nat) : Int) ≠ [] →
      ∃ e, CheckCompatible c n H = some e ∧
        e.RewindTo ∈ conflictRewinds c n ((H : Nat) : Int) ∧
        ∀ r ∈ conflictRewinds c n ((H : Nat) : Int), e.RewindTo ≤ r) := by
  obtain ⟨fp, rfl⟩ : ∃ k, fuel = k + 1 := ⟨fuel - 1, by omega⟩
  cases hcc : checkCompatible c n ((H : Nat) : Int) with
  | none =>
    have hCD : CheckCompatible c n H = none := by
      show checkCompatibleLoop c n (H + 1 + 1) none H = none
      simp only [checkCompatibleLoop, hcc]
    have hfD : checkCompatibleLoop c n (fp + 1) none H = none := by
      simp only [checkCompatibleLoop, hcc]
    refine ⟨by rw [hCD, hfD], fun _ => hCD, ?_⟩
    intro hne
    exact absurd (cc_none_iff.mp hcc) hne
  | some e0 =>
    have hr0 := cc_rewindTo_le hcc
    have hmem0 := cc_mem_rewindSet hcc
    have hCRmem := cc_mem_CR hcc
    have hCD : CheckCompatible c n H =
        checkCompatibleLoop c n (H + 1) (some e0) e0.RewindTo := by
      show checkCompatibleLoop c n (H + 1 + 1) none H = _
      simp only [checkCompatibleLoop, hcc]
    have hfD : checkCompatibleLoop c n (fp + 1) none H =
        checkCompatibleLoop c n fp (some e0) e0.RewindTo := by
      simp only [checkCompatibleLoop, hcc]
    have hstab : checkCompatibleLoop c n fp (some e0) e0.RewindTo =
        checkCompatibleLoop c n (H + 1) (some e0) e0.RewindTo := by
      apply loop_stable c n e0.RewindTo e0 fp (H + 1) rfl
      · have := rewBelow_le_six c n e0.RewindTo
        omega
      · have := rewBelow_le_self c n e0.RewindTo
        omega
    refine ⟨by rw [hfD, hstab, hCD], ?_, ?_⟩
    · intro hnil
      have : checkCompatible c n ((H : Nat) : Int) = none := cc_none_iff.mpr hnil
      rw [this] at hcc
      exact Option.noConfusion hcc
    · intro hne
      obtain ⟨e, heq, hm, hmin⟩ :=
        loop_min c n H hH e0.RewindTo e0 (H + 1) rfl hr0 hCRmem (by omega)
      exact ⟨e, by rw [hCD]; exact heq, hm, hmin⟩

theorem fixedpoint_converges_to_min_witness :
    (checkCompatibleLoop cfgHom100 cfgHom200 10 none 150 =
      CheckCompatible cfgHom100 cfgHom200 150) ∧
    (conflictRewinds cfgHom100 cfgHom200 ((150 : Nat) : Int) = [] →
      CheckCompatible cfgHom100 cfgHom200 150 = none) ∧
    (conflictRewinds cfgHom100 cfgHom200 ((150 : Nat) : Int) ≠ [] →
      ∃ e, CheckCompatible cfgHom100 cfgHom200 150 = some e ∧
        e.RewindTo ∈ conflictRewinds cfgHom100 cfgHom200 ((150 : Nat) : Int) ∧
        ∀ r ∈ conflictRewinds cfgHom100 cfgHom200 ((150 : Nat) : Int),
          e.RewindTo ≤ r) :=
  fixedpoint_converges_to_min cfgHom100 cfgHom200 150 10 (by decide) (by decide)
